import Mathlib

/-!
# ember-template-lint — verification of the rule-engine specification

Shallow embedding of the linter's data model and of the pending/ignore
classifier, the config resolver, `statusForModule`, and the
`block-indentation` rule.

The repository sources available are the acceptance tests
(`test/acceptance-test.js`), two rule plugins (`ext/plugins/*`) and addon
glue.  The Linter façade itself (`lib/index.js`) and the config loader
(`lib/get-config.js`) are not among the sources, so those operations are
modelled from the specification (and pinned, where the acceptance tests
speak, to the behaviour the tests assert).  Every such definition carries a
doc comment starting with `Modelled from the spec:`.
-/

namespace EmberTemplateLint

/-- A rule's configured value (`RuleConfig` in the spec §3): a boolean
on/off switch or a rule-specific option value. -/
inductive RuleConfig
  | bool (b : Bool)
  | str (s : String)
  | num (n : Int)
  deriving DecidableEq, Repr

/-- A `pending` list entry (spec §3): either a bare module identifier, or a
`{moduleId, only}` pair restricting the demotion to the listed rules. -/
inductive PendingEntry
  | bare (moduleId : String)
  | withOnly (moduleId : String) (onlyRules : List String)
  deriving DecidableEq, Repr

/-- The module identifier carried by a pending entry. -/
def PendingEntry.moduleId : PendingEntry → String
  | .bare m => m
  | .withOnly m _ => m

/-- The resolved configuration (spec §3): `{rules, pending, ignore}`.  The
`rules` mapping is a key/value list; `ignore` is a list of glob patterns. -/
structure Config where
  rules : List (String × RuleConfig) := []
  pending : List PendingEntry := []
  ignore : List String := []
  deriving DecidableEq, Repr

/-- A raw per-rule violation produced by the dispatcher during the AST walk
(spec §4.3): message text, originating rule name, node-derived location and
source excerpt. -/
structure RawMessage where
  rule : String
  message : String
  line : Nat
  column : Nat
  source : String
  deriving DecidableEq, Repr

/-- One reported issue (spec §3): severity 2 = error, 1 = warning.
Synthetic findings (stale-pending, rule-not-found, fatal) carry no
line/column, no source and no rule name. -/
structure Finding where
  message : String
  moduleId : String
  line : Option Nat := none
  column : Option Nat := none
  source : Option String := none
  rule : Option String := none
  severity : Nat
  fatal : Bool := false
  deriving DecidableEq, Repr

/-- Modelled from the spec: glob matching, as used by `config.ignore`
(spec §4.5 step 1; `lib/index.js` is not among the sources).  `*` matches
any run of characters not containing a path separator; every other
character matches literally; a pattern without `*` therefore matches
exactly its own text.  `tryStar f s` lets a `*` consume any run of
non-separator characters before the rest of the pattern (`f`) matches. -/
def tryStar (f : List Char → Bool) : List Char → Bool
  | [] => f []
  | c :: s => f (c :: s) || (decide (c ≠ '/') && tryStar f s)

/-- The glob matcher proper, on character lists (pattern, then subject);
see `tryStar` for the semantics of `*`. -/
def globMatchAux : List Char → List Char → Bool
  | [], s => s.isEmpty
  | '*' :: ps, s => tryStar (globMatchAux ps) s
  | _ :: _, [] => false
  | p :: ps, c :: s => p == c && globMatchAux ps s

/-- Glob match on strings (pattern, then subject). -/
def globMatch (pat subject : String) : Bool :=
  globMatchAux pat.data subject.data

/-- Whether a module identifier is an absolute path (starts with `/`). -/
def isAbsolutePath (s : String) : Bool :=
  s.data.head? == some '/'

/-- Modelled from the spec: moduleId matching for pending entries
(spec §3 invariant, §4.5 step 2; `lib/index.js` is not among the sources):
exact string equality, or, when one of the two identifiers is an absolute
path, that absolute path ends with `/` followed by the other (relative)
identifier. -/
def moduleMatch (a b : String) : Bool :=
  a == b
    || (isAbsolutePath a && List.isSuffixOf ('/' :: b.data) a.data)
    || (isAbsolutePath b && List.isSuffixOf ('/' :: a.data) b.data)

/-- Modelled from the spec: `Linter.prototype.statusForModule(type,
moduleId)` (`lib/index.js` is not among the sources).  For `"pending"` it
reports whether some pending entry's moduleId matches; for `"ignore"`
whether some ignore pattern matches. -/
def statusForModule (which : String) (config : Config) (moduleId : String) : Bool :=
  match which with
  | "pending" => config.pending.any (fun e => moduleMatch e.moduleId moduleId)
  | "ignore" => config.ignore.any (fun pat => globMatch pat moduleId)
  | _ => false

/-- Modelled from the spec: whether `config.ignore` contains a pattern
matching `moduleId` (spec §4.5 step 1). -/
def isIgnored (config : Config) (moduleId : String) : Bool :=
  config.ignore.any (fun pat => globMatch pat moduleId)

/-- Modelled from the spec: the pending entry (if any) whose moduleId
matches the linted module (spec §4.5 step 2) — the first match wins. -/
def pendingEntryFor (config : Config) (moduleId : String) : Option PendingEntry :=
  config.pending.find? (fun e => moduleMatch e.moduleId moduleId)

/-- Modelled from the spec: severity assignment (spec §4.5 step 3).  With no
pending entry a violation is an error (2); a bare pending entry demotes
every violation to a warning (1); an `{only}` entry demotes exactly the
violations of the listed rules. -/
def severityFor (pe : Option PendingEntry) (m : RawMessage) : Nat :=
  match pe with
  | none => 2
  | some (.bare _) => 1
  | some (.withOnly _ onlyRules) => if onlyRules.contains m.rule then 1 else 2

/-- The finding built from one raw dispatcher message. -/
def toFinding (moduleId : String) (sev : Nat) (m : RawMessage) : Finding :=
  { message := m.message
    moduleId := moduleId
    line := some m.line
    column := some m.column
    source := some m.source
    rule := some m.rule
    severity := sev }

/-- The synthetic stale-pending error finding (spec §4.5 step 4). -/
def staleFinding (moduleId : String) : Finding :=
  { message := "Pending module (`" ++ moduleId ++ "`) passes all rules. Please remove `"
      ++ moduleId ++ "` from pending list."
    moduleId := moduleId
    severity := 2 }

/-- The synthetic rule-not-found error finding (spec §4.5 step 5). -/
def ruleNotFoundFinding (moduleId ruleName : String) : Finding :=
  { message := "Definition for rule '" ++ ruleName ++ "' was not found"
    moduleId := moduleId
    severity := 2 }

/-- The fatal finding produced when the external parser throws on the
module's source (spec §3, §6): `fatal: true`, no rule name. -/
def fatalFinding (moduleId err : String) : Finding :=
  { message := err
    moduleId := moduleId
    severity := 2
    fatal := true }

/-- The rule names known to the Rule Registry (spec §4.2; the built-in
rules exercised by the acceptance tests). -/
def ruleRegistry : List String :=
  ["no-bare-strings", "block-indentation", "no-html-comments",
   "no-triple-curlies", "no-nested-interactive", "no-shadowed-elements",
   "self-closing-void-elements"]

/-- Whether the Rule Registry knows a rule name. -/
def registryHas (name : String) : Bool :=
  ruleRegistry.contains name

/-- Modelled from the spec: the Classifier (spec §4.5; `lib/index.js` is
not among the sources).  Steps: (1) an ignored module yields no findings;
(2) locate the pending entry; (3) assign severities; (4) a pending module
with no raw messages at all yields the single stale-pending error (the
acceptance tests pin this trigger to an empty raw-message list for both
pending forms: a module with violations none of which the `{only}` entry
lists keeps its error findings and gets no stale finding); (5) each
configured rule name unknown to the registry yields a rule-not-found
error finding. -/
def classify (raw : List RawMessage) (moduleId : String) (config : Config) : List Finding :=
  if isIgnored config moduleId then []
  else
    let pe := pendingEntryFor config moduleId
    let ruleFindings := raw.map (fun m => toFinding moduleId (severityFor pe m) m)
    let stale :=
      match pe with
      | some _ => if raw.isEmpty then [staleFinding moduleId] else []
      | none => []
    let notFound := config.rules.filterMap
      (fun rv => if registryHas rv.1 then none else some (ruleNotFoundFinding moduleId rv.1))
    ruleFindings ++ stale ++ notFound

/-- Modelled from the spec: `Linter.prototype.verify` (`lib/index.js` is
not among the sources).  The parse of the source is abstracted as an
`Except` value: `.error` stands for the external parser throwing, `.ok raw`
for a successful AST walk producing the dispatcher's raw messages.  An
ignored module yields no findings regardless of source content (spec §8);
otherwise a parse failure yields the single fatal finding and a successful
parse is classified. -/
def verify (config : Config) (moduleId : String)
    (parsed : Except String (List RawMessage)) : List Finding :=
  if isIgnored config moduleId then []
  else
    match parsed with
    | .error e => [fatalFinding moduleId e]
    | .ok raw => classify raw moduleId config

/-- Modelled from the spec: the deprecated-rule-name table of the Config
Resolver (spec §4.1; `lib/get-config.js` is not among the sources).  Each
pair maps a legacy rule name to its canonical current name; the acceptance
test pins `bare-strings ↦ no-bare-strings`. -/
def deprecatedRules : List (String × String) :=
  [("bare-strings", "no-bare-strings"),
   ("html-comments", "no-html-comments"),
   ("triple-curlies", "no-triple-curlies")]

/-- The canonical name of a configured rule: deprecated names are rewritten,
all other names are kept. -/
def canonicalName (n : String) : String :=
  match deprecatedRules.find? (fun p => p.1 == n) with
  | some p => p.2
  | none => n

/-- Modelled from the spec: rule-name canonicalisation performed by the
Config Resolver (spec §4.1), preserving each configured value. -/
def resolveRules (rules : List (String × RuleConfig)) : List (String × RuleConfig) :=
  rules.map (fun rv => (canonicalName rv.1, rv.2))

/-- A configuration with its rule names canonicalised. -/
def resolveConfig (c : Config) : Config :=
  { c with rules := resolveRules c.rules }

/-- The error message produced for an explicitly supplied `configPath` that
does not resolve to an existing file. -/
def configNotFoundMsg (p : String) : String :=
  "The configuration file specified (" ++ p ++ ") could not be found. Aborting."

/-- The name of the configuration file discovered in the working
directory when no explicit `configPath` is given. -/
def lintrcName : String :=
  ".template-lintrc.js"

/-- Modelled from the spec: config resolution (spec §4.1;
`lib/get-config.js` is not among the sources).  The filesystem is
abstracted as `fs : String → Option (Except String Config)`: `none` means
the file does not exist, `some (.error m)` that evaluating it threw with
message `m`, `some (.ok c)` that it evaluated to `c`.  An explicit
`configPath` must exist ("could not be found. Aborting." otherwise) and is
consulted even when an explicit config object is also given (which then
wins on merge); without a `configPath`, an explicit config object is used
directly, else the discovered `.template-lintrc.js` (empty rule set when
absent).  An error thrown while evaluating the consulted file is
propagated.  Rule names of the winning configuration are canonicalised. -/
def loadConfig (explicitConfig : Option Config) (configPath : Option String)
    (fs : String → Option (Except String Config)) : Except String Config :=
  match configPath with
  | some p =>
    match fs p with
    | none => .error (configNotFoundMsg p)
    | some (.error m) => .error m
    | some (.ok fileCfg) =>
      match explicitConfig with
      | some e => .ok (resolveConfig e)
      | none => .ok (resolveConfig fileCfg)
  | none =>
    match explicitConfig with
    | some e => .ok (resolveConfig e)
    | none =>
      match fs lintrcName with
      | none => .ok (resolveConfig {})
      | some (.error m) => .error m
      | some (.ok fileCfg) => .ok (resolveConfig fileCfg)

/-! ## The `block-indentation` rule (`ext/plugins/lint-block-indentation.js`) -/

/-- A source position as carried on AST nodes (`loc.start` / `loc.end`). -/
structure SrcLoc where
  line : Nat
  column : Nat
  deriving DecidableEq, Repr

/-- A node's source span (`loc`). -/
structure SrcSpan where
  start : SrcLoc
  endLoc : SrcLoc
  deriving DecidableEq, Repr

/-- An `ElementNode` as seen by the rule: its tag and its span. -/
structure ElementNodeData where
  tag : String
  loc : SrcSpan
  deriving DecidableEq, Repr

/-- A `BlockStatement` as seen by the rule: its `path.original` and span. -/
structure BlockStatementData where
  pathOriginal : String
  loc : SrcSpan
  deriving DecidableEq, Repr

/-- Modelled from the spec: the Location Formatter
(`ext/helpers/calculate-location-display.js` is not among the sources; the
display shape is pinned by the plugin test): module name + position as
`('<module>'@ L<line>:C<column>)`. -/
def calculateLocationDisplay (moduleName : String) (loc : SrcLoc) : String :=
  "('" ++ moduleName ++ "'@ L" ++ toString loc.line ++ ":C" ++ toString loc.column ++ ")"

/-- `BlockIndentation.prototype.processElementNode`
(`ext/plugins/lint-block-indentation.js` lines 31–50): elements that start
and end on the same line are fine; otherwise the closing tag's implied
indentation `end.column - tag.length - 3` must equal `start.column`, and a
single warning is logged when it does not.  The returned list is the
sequence of messages the call passes to `log`. -/
def processElementNode (moduleName : String) (node : ElementNodeData) : List String :=
  if node.loc.start.line = node.loc.endLoc.line then
    []
  else
    let startColumn : Int := node.loc.start.column
    let endColumn : Int := node.loc.endLoc.column
    let correctedEndColumn : Int := endColumn - node.tag.length - 3
    if correctedEndColumn ≠ startColumn then
      ["Incorrect indentation for `" ++ node.tag ++ "` beginning at "
        ++ calculateLocationDisplay moduleName node.loc.start
        ++ ". Expected `</" ++ node.tag ++ ">` ending at "
        ++ calculateLocationDisplay moduleName node.loc.endLoc
        ++ "to be at an indentation of " ++ toString startColumn
        ++ " but was found at " ++ toString correctedEndColumn ++ "."]
    else
      []

/-- `BlockIndentation.prototype.processBlockStatement`
(`ext/plugins/lint-block-indentation.js` lines 52–67): the closing mustache's
implied indentation `end.column - path.original.length - 5` must equal
`start.column`; a single warning is logged when it does not. -/
def processBlockStatement (moduleName : String) (node : BlockStatementData) : List String :=
  let startColumn : Int := node.loc.start.column
  let endColumn : Int := node.loc.endLoc.column
  let correctedEndColumn : Int := endColumn - node.pathOriginal.length - 5
  if correctedEndColumn ≠ startColumn then
    ["Incorrect indentation for `" ++ node.pathOriginal ++ "` beginning at "
      ++ calculateLocationDisplay moduleName node.loc.start
      ++ ". Expected `\x7b\x7b/" ++ node.pathOriginal ++ "\x7d\x7d` ending at "
      ++ calculateLocationDisplay moduleName node.loc.endLoc
      ++ "to be at an indentation of " ++ toString startColumn
      ++ " but was found at " ++ toString correctedEndColumn ++ "."]
  else
    []

/-- The `no-bare-strings` violation the acceptance tests produce for the
source `<div>bare string</div>`. -/
def msgBareString : RawMessage :=
  { rule := "no-bare-strings"
    message := "Non-translated string used"
    line := 1
    column := 5
    source := "bare string" }

/-! ## Helper lemmas -/

theorem data_append_ne_nil (s t : String) (hs : s.data ≠ []) : (s ++ t).data ≠ [] := by
  rw [String.data_append]
  intro h
  exact hs (List.append_eq_nil.mp h).1

theorem data_head_append (s t : String) (hs : s.data ≠ []) :
    (s ++ t).data.head? = s.data.head? := by
  rw [String.data_append]
  exact List.head?_append_of_ne_nil _ hs

/-- A rule-not-found finding is never the stale-pending finding: their
messages start with different characters. -/
theorem ruleNotFound_ne_stale (mid rn mid' : String) :
    ruleNotFoundFinding mid rn ≠ staleFinding mid' := by
  intro h
  have hm := congrArg Finding.message h
  simp only [ruleNotFoundFinding, staleFinding] at hm
  have h1 : ("Definition for rule '" ++ rn ++ "' was not found").data.head? = some 'D' := by
    rw [data_head_append _ _ (data_append_ne_nil _ _ (by decide)),
      data_head_append _ _ (by decide)]
    decide
  have h2 : ("Pending module (`" ++ mid' ++ "`) passes all rules. Please remove `"
      ++ mid' ++ "` from pending list.").data.head? = some 'P' := by
    rw [data_head_append _ _ (data_append_ne_nil _ _
        (data_append_ne_nil _ _ (data_append_ne_nil _ _ (by decide)))),
      data_head_append _ _ (data_append_ne_nil _ _ (data_append_ne_nil _ _ (by decide))),
      data_head_append _ _ (data_append_ne_nil _ _ (by decide)),
      data_head_append _ _ (by decide)]
    decide
  rw [hm, h2] at h1
  exact absurd h1 (by decide)

/-- Two rule-not-found findings for the same module agree exactly when
their rule names do. -/
theorem ruleNotFound_inj (mid a b : String) :
    ruleNotFoundFinding mid a = ruleNotFoundFinding mid b ↔ a = b := by
  constructor
  · intro h
    have hm := congrArg Finding.message h
    simp only [ruleNotFoundFinding] at hm
    have := congrArg String.data hm
    rw [String.data_append, String.data_append, String.data_append, String.data_append] at this
    exact String.ext (List.append_cancel_left (List.append_cancel_right this))
  · intro h
    rw [h]

/-- A finding built from a raw dispatcher message always carries its rule
name. -/
theorem toFinding_rule (mid : String) (sev : Nat) (m : RawMessage) :
    (toFinding mid sev m).rule = some m.rule := rfl

/-! ## C1 — ignored modules yield no findings -/

/-- C1: for every module whose moduleId is matched by some pattern in
`config.ignore` (exact string match or glob match), `verify` returns the
empty sequence of findings, for every source text (any parse outcome, any
raw violations). -/
theorem ignored_module_verify_empty (config : Config) (moduleId : String)
    (h : config.ignore.any (fun pat => globMatch pat moduleId) = true) :
    ∀ parsed, verify config moduleId parsed = [] := by
  intro parsed
  have hig : isIgnored config moduleId = true := h
  simp [verify, hig]

/-- C1 witness: the two acceptance-test configurations (exact ignore entry
and glob ignore entry) both silence a module with a `no-bare-strings`
violation. -/
theorem ignored_module_verify_empty_witness :
    verify
      { rules := [("no-bare-strings", .bool true), ("block-indentation", .bool true)],
        ignore := ["some/path/here"] }
      "some/path/here" (.ok [msgBareString]) = []
    ∧ verify
      { rules := [("no-bare-strings", .bool true), ("block-indentation", .bool true)],
        ignore := ["some/path/*"] }
      "some/path/here" (.ok [msgBareString]) = [] :=
  ⟨ignored_module_verify_empty _ _ (by decide) _,
   ignored_module_verify_empty _ _ (by decide) _⟩

/-! ## C7 — parse failure yields a single fatal finding -/

/-- C7: when the external parser throws on a module's source, `verify`
returns exactly one finding for that module, carrying `fatal: true` and no
rule name, and no other findings. -/
theorem parse_error_single_fatal (config : Config) (moduleId err : String)
    (hig : isIgnored config moduleId = false) :
    verify config moduleId (.error err) = [fatalFinding moduleId err]
    ∧ (fatalFinding moduleId err).fatal = true
    ∧ (fatalFinding moduleId err).rule = none := by
  refine ⟨?_, rfl, rfl⟩
  simp [verify, hig]

/-- C7 witness: the acceptance-test configuration with the unterminated
`<div>` source (the parser's error abstracted as its message). -/
theorem parse_error_single_fatal_witness :
    verify { rules := [("no-bare-strings", .bool true)] } "some/module"
        (.error "Parse error on line 1: unclosed element `div`")
      = [fatalFinding "some/module" "Parse error on line 1: unclosed element `div`"] :=
  (parse_error_single_fatal _ _ _ (by decide)).1

/-! ## C10 — the block-indentation rule's process callbacks -/

/-- C10: `processElementNode` logs nothing for an element that starts and
ends on the same line; for any other element it logs exactly one warning
iff `end.column - tag.length - 3` differs from `start.column`; and
`processBlockStatement` logs exactly one warning iff
`end.column - path.original.length - 5` differs from `start.column`. -/
theorem block_indentation_process_characterisation :
    (∀ (mn : String) (node : ElementNodeData),
      node.loc.start.line = node.loc.endLoc.line → processElementNode mn node = [])
    ∧ (∀ (mn : String) (node : ElementNodeData),
        node.loc.start.line ≠ node.loc.endLoc.line →
        ((processElementNode mn node).length = 1 ↔
          (node.loc.endLoc.column : Int) - node.tag.length - 3 ≠ node.loc.start.column))
    ∧ (∀ (mn : String) (node : BlockStatementData),
        (processBlockStatement mn node).length = 1 ↔
          (node.loc.endLoc.column : Int) - node.pathOriginal.length - 5 ≠ node.loc.start.column) := by
  refine ⟨?_, ?_, ?_⟩
  · intro mn node h
    simp [processElementNode, h]
  · intro mn node h
    by_cases hc : (node.loc.endLoc.column : Int) - node.tag.length - 3 ≠ node.loc.start.column
    · simp [processElementNode, h, hc]
    · simp [processElementNode, h, hc]
  · intro mn node
    by_cases hc : (node.loc.endLoc.column : Int) - node.pathOriginal.length - 5 ≠ node.loc.start.column
    · simp [processBlockStatement, hc]
    · simp [processBlockStatement, hc]

/-- C10 witness: an element that starts and ends on line 1 logs nothing,
while the one-line `{{#each}}…{{/each}}` block from the plugin test
(start column 2, end column 28) logs exactly one warning. -/
theorem block_indentation_process_characterisation_witness :
    processElementNode "layout.hbs"
        { tag := "div", loc := { start := { line := 1, column := 0 },
                                 endLoc := { line := 1, column := 30 } } } = []
    ∧ (processBlockStatement "layout.hbs"
        { pathOriginal := "each", loc := { start := { line := 2, column := 2 },
                                           endLoc := { line := 2, column := 28 } } }).length = 1 :=
  ⟨block_indentation_process_characterisation.1 "layout.hbs"
      { tag := "div", loc := { start := { line := 1, column := 0 },
                               endLoc := { line := 1, column := 30 } } } rfl,
   (block_indentation_process_characterisation.2.2 "layout.hbs"
      { pathOriginal := "each", loc := { start := { line := 2, column := 2 },
                                         endLoc := { line := 2, column := 28 } } }).mpr (by decide)⟩

/-- Normal form of the classifier on a non-ignored module: the per-message
findings, then the stale-pending finding (when a pending entry matched and
there were no raw messages), then the rule-not-found findings. -/
theorem classify_eq (raw : List RawMessage) (mid : String) (config : Config)
    (hig : isIgnored config mid = false) :
    classify raw mid config =
      raw.map (fun m => toFinding mid (severityFor (pendingEntryFor config mid) m) m)
      ++ (match pendingEntryFor config mid with
          | some _ => if raw.isEmpty then [staleFinding mid] else []
          | none => [])
      ++ config.rules.filterMap
          (fun rv => if registryHas rv.1 then none else some (ruleNotFoundFinding mid rv.1)) := by
  simp only [classify, hig, Bool.false_eq_true, if_false]

/-- On a non-ignored module a successful parse is classified. -/
theorem verify_ok_not_ignored (config : Config) (mid : String) (raw : List RawMessage)
    (hig : isIgnored config mid = false) :
    verify config mid (.ok raw) = classify raw mid config := by
  simp only [verify, hig, Bool.false_eq_true, if_false]

/-! ## C2 — bare pending entries demote violations to warnings -/

/-- C2 counterexample: with `some/path/here` listed bare in `pending`, a
module producing one raw violation, and an unknown rule name also
configured, `verify` still returns a severity-2 finding (the synthetic
rule-not-found error), so not every finding for the module is a warning. -/
theorem pending_bare_all_warnings_cex :
    PendingEntry.bare "some/path/here" ∈
      ({ rules := [("no-bare-strings", .bool true), ("missing-rule", .bool true)],
         pending := [.bare "some/path/here"] } : Config).pending
    ∧ ([msgBareString] : List RawMessage) ≠ []
    ∧ (verify
        { rules := [("no-bare-strings", .bool true), ("missing-rule", .bool true)],
          pending := [.bare "some/path/here"] }
        "some/path/here" (.ok [msgBareString])).any (fun f => f.severity == 2) = true := by
  refine ⟨by decide, by decide, by decide⟩

/-- C2 as amended: for a module matched by a bare pending entry that
produces at least one raw violation, every finding derived from the
module's raw violations (that is, every finding carrying a rule name) has
severity 1, each raw violation appears demoted, and any severity-2 finding
is synthetic (carries no rule name). -/
theorem pending_bare_demotes_rule_findings (config : Config) (mid pid : String)
    (raw : List RawMessage)
    (hig : isIgnored config mid = false)
    (hpe : pendingEntryFor config mid = some (.bare pid))
    (hraw : raw ≠ []) :
    (∀ m ∈ raw, toFinding mid 1 m ∈ verify config mid (.ok raw))
    ∧ (∀ f ∈ verify config mid (.ok raw), f.rule.isSome = true → f.severity = 1)
    ∧ (∀ f ∈ verify config mid (.ok raw), f.severity = 2 → f.rule = none) := by
  have hne : raw.isEmpty = false := by
    cases raw with
    | nil => exact absurd rfl hraw
    | cons a l => rfl
  have hv : verify config mid (.ok raw) =
      raw.map (fun m => toFinding mid 1 m)
      ++ config.rules.filterMap
          (fun rv => if registryHas rv.1 then none else some (ruleNotFoundFinding mid rv.1)) := by
    simp [verify, classify, hig, hpe, hne, severityFor]
  rw [hv]
  refine ⟨?_, ?_, ?_⟩
  · intro m hm
    exact List.mem_append_left _ (List.mem_map_of_mem _ hm)
  · intro f hf hsome
    rcases List.mem_append.mp hf with hmap | hnf
    · rcases List.mem_map.mp hmap with ⟨m, _, rfl⟩
      rfl
    · rcases List.mem_filterMap.mp hnf with ⟨rv, _, hrv⟩
      by_cases h : registryHas rv.1 = true
      · rw [if_pos h] at hrv
        exact Option.noConfusion hrv
      · rw [if_neg h] at hrv
        injection hrv with hrv
        subst hrv
        simp [ruleNotFoundFinding] at hsome
  · intro f hf h2
    rcases List.mem_append.mp hf with hmap | hnf
    · rcases List.mem_map.mp hmap with ⟨m, _, rfl⟩
      simp [toFinding] at h2
    · rcases List.mem_filterMap.mp hnf with ⟨rv, _, hrv⟩
      by_cases h : registryHas rv.1 = true
      · rw [if_pos h] at hrv
        exact Option.noConfusion hrv
      · rw [if_neg h] at hrv
        injection hrv with hrv
        subst hrv
        rfl

/-- C2 witness (the amended claim at the acceptance test's input): the
single `no-bare-strings` violation of the bare-pending module comes back
demoted to severity 1. -/
theorem pending_bare_demotes_rule_findings_witness :
    toFinding "some/path/here" 1 msgBareString ∈
      verify { rules := [("no-bare-strings", .bool true)], pending := [.bare "some/path/here"] }
        "some/path/here" (.ok [msgBareString]) :=
  (pending_bare_demotes_rule_findings _ _ "some/path/here" _
      (by decide) (by decide) (by decide)).1 msgBareString (by decide)

/-! ## C3 — `{only}` pending entries demote exactly the listed rules -/

/-- C3: for a module matched by a `{moduleId, only}` pending entry, each raw
violation comes back with severity 1 exactly when its rule is in `only`
(and severity 2 otherwise), and every finding that carries a rule name has
severity 1 iff that rule is listed in `only`. -/
theorem pending_only_demotes_exactly (config : Config) (mid pid : String)
    (onlyRules : List String) (raw : List RawMessage)
    (hig : isIgnored config mid = false)
    (hpe : pendingEntryFor config mid = some (.withOnly pid onlyRules)) :
    (∀ m ∈ raw,
      toFinding mid (if onlyRules.contains m.rule then 1 else 2) m ∈ verify config mid (.ok raw))
    ∧ (∀ f ∈ verify config mid (.ok raw), ∀ rn, f.rule = some rn →
        ((f.severity = 1 ↔ onlyRules.contains rn = true)
         ∧ (f.severity = 2 ↔ onlyRules.contains rn = false))) := by
  have hv : verify config mid (.ok raw) =
      raw.map (fun m => toFinding mid (if onlyRules.contains m.rule then 1 else 2) m)
      ++ (if raw.isEmpty then [staleFinding mid] else [])
      ++ config.rules.filterMap
          (fun rv => if registryHas rv.1 then none else some (ruleNotFoundFinding mid rv.1)) := by
    simp [verify, classify, hig, hpe, severityFor]
  rw [hv]
  constructor
  · intro m hm
    exact List.mem_append_left _ (List.mem_append_left _ (List.mem_map_of_mem _ hm))
  · intro f hf rn hrn
    rcases List.mem_append.mp hf with hl | hnf
    · rcases List.mem_append.mp hl with hmap | hstale
      · rcases List.mem_map.mp hmap with ⟨m, _, rfl⟩
        have hm : m.rule = rn := by
          have := hrn
          simp [toFinding] at this
          exact this
        rw [← hm]
        by_cases hc : onlyRules.contains m.rule = true
        · rw [hc]
          simp [toFinding, hc]
        · rw [Bool.not_eq_true] at hc
          rw [hc]
          simp [toFinding, hc]
      · by_cases he : raw.isEmpty = true
        · rw [if_pos he] at hstale
          rcases List.mem_singleton.mp hstale with rfl
          cases hrn
        · rw [if_neg he] at hstale
          cases hstale
    · rcases List.mem_filterMap.mp hnf with ⟨rv, _, hrv⟩
      by_cases h : registryHas rv.1 = true
      · rw [if_pos h] at hrv
        cases hrv
      · rw [if_neg h] at hrv
        injection hrv with hrv
        rw [← hrv] at hrn
        cases hrn

/-- C3 witness (both directions at the acceptance tests' inputs): with
`only: ["block-indentation"]`, the `no-bare-strings` violation keeps
severity 2, and with `only: ["no-bare-strings"]` it is demoted to 1. -/
theorem pending_only_demotes_exactly_witness :
    toFinding "some/path/here" 2 msgBareString ∈
      verify
        { rules := [("no-bare-strings", .bool true), ("block-indentation", .bool true)],
          pending := [.withOnly "some/path/here" ["block-indentation"]] }
        "some/path/here" (.ok [msgBareString])
    ∧ toFinding "some/path/here" 1 msgBareString ∈
      verify
        { rules := [("no-bare-strings", .bool true)],
          pending := [.withOnly "some/path/here" ["no-bare-strings"]] }
        "some/path/here" (.ok [msgBareString]) :=
  ⟨(pending_only_demotes_exactly _ _ "some/path/here" ["block-indentation"] _
      (by decide) (by decide)).1 msgBareString (by decide),
   (pending_only_demotes_exactly _ _ "some/path/here" ["no-bare-strings"] _
      (by decide) (by decide)).1 msgBareString (by decide)⟩

/-- The stale-pending finding never occurs among the rule-not-found
findings. -/
theorem count_stale_notFound (mid : String) (rules : List (String × RuleConfig)) :
    (rules.filterMap
      (fun rv => if registryHas rv.1 then none
                 else some (ruleNotFoundFinding mid rv.1))).count (staleFinding mid) = 0 := by
  rw [List.count_eq_zero]
  intro hmem
  rcases List.mem_filterMap.mp hmem with ⟨rv, _, hrv⟩
  by_cases h : registryHas rv.1 = true
  · rw [if_pos h] at hrv
    exact Option.noConfusion hrv
  · rw [if_neg h] at hrv
    injection hrv with hrv
    exact ruleNotFound_ne_stale mid rv.1 mid hrv

/-! ## C4 — the stale-pending synthetic finding -/

/-- C4 counterexample: the `{only: ["block-indentation"]}` pending entry
matches `some/path/here` and none of the module's raw messages (a single
`no-bare-strings` violation) is matched by the entry, yet `verify` emits no
stale-pending finding at all — the code only emits it when the module
produces zero raw messages. -/
theorem stale_pending_cex :
    pendingEntryFor
        { rules := [("no-bare-strings", .bool true), ("block-indentation", .bool true)],
          pending := [.withOnly "some/path/here" ["block-indentation"]] }
        "some/path/here"
      = some (.withOnly "some/path/here" ["block-indentation"])
    ∧ ([msgBareString].any
        (fun m => (["block-indentation"] : List String).contains m.rule)) = false
    ∧ (verify
        { rules := [("no-bare-strings", .bool true), ("block-indentation", .bool true)],
          pending := [.withOnly "some/path/here" ["block-indentation"]] }
        "some/path/here" (.ok [msgBareString])).count (staleFinding "some/path/here") = 0 := by
  refine ⟨by decide, by decide, by decide⟩

/-- C4 as amended: whenever a pending entry (bare or `{only}` form) matches
the module and the module produces zero raw messages, `verify` emits
exactly one synthetic finding equal to the stale-pending finding — which
has severity 2, no line, no column, and the message
"Pending module (`<moduleId>`) passes all rules. Please remove
`<moduleId>` from pending list.". -/
theorem stale_pending_on_empty (config : Config) (mid : String) (e : PendingEntry)
    (hig : isIgnored config mid = false)
    (hpe : pendingEntryFor config mid = some e) :
    (verify config mid (.ok [])).count (staleFinding mid) = 1
    ∧ (staleFinding mid).severity = 2
    ∧ (staleFinding mid).line = none
    ∧ (staleFinding mid).column = none
    ∧ (staleFinding mid).message =
        "Pending module (`" ++ mid ++ "`) passes all rules. Please remove `"
          ++ mid ++ "` from pending list." := by
  refine ⟨?_, rfl, rfl, rfl, rfl⟩
  have hv : verify config mid (.ok []) =
      [staleFinding mid]
      ++ config.rules.filterMap
          (fun rv => if registryHas rv.1 then none else some (ruleNotFoundFinding mid rv.1)) := by
    simp [verify, classify, hig, hpe]
  rw [hv, List.count_append, count_stale_notFound]
  simp

/-- C4 witness (the amended claim at the acceptance tests' inputs): both
the bare form and the `{only}` form produce exactly one stale-pending
finding for a module with no violations. -/
theorem stale_pending_on_empty_witness :
    (verify { rules := [("no-bare-strings", .bool true)], pending := [.bare "some/path/here"] }
        "some/path/here" (.ok [])).count (staleFinding "some/path/here") = 1
    ∧ (verify
        { rules := [("no-bare-strings", .bool true)],
          pending := [.withOnly "some/path/here" ["no-bare-strings"]] }
        "some/path/here" (.ok [])).count (staleFinding "some/path/here") = 1 :=
  ⟨(stale_pending_on_empty _ "some/path/here" (.bare "some/path/here")
      (by decide) (by decide)).1,
   (stale_pending_on_empty _ "some/path/here" (.withOnly "some/path/here" ["no-bare-strings"])
      (by decide) (by decide)).1⟩

/-! ## C6 — unknown configured rules are reported at verify-time -/

/-- Counting rule-not-found findings in the synthetic segment: one per
occurrence of the unknown rule name among the configured keys. -/
theorem count_ruleNotFound_filterMap (mid rn : String) (hreg : registryHas rn = false)
    (rules : List (String × RuleConfig)) :
    (rules.filterMap
      (fun rv => if registryHas rv.1 then none
                 else some (ruleNotFoundFinding mid rv.1))).count (ruleNotFoundFinding mid rn)
      = (rules.map Prod.fst).count rn := by
  induction rules with
  | nil => rfl
  | cons hd tl ih =>
    rw [List.map_cons, List.filterMap_cons]
    by_cases h : registryHas hd.1 = true
    · rw [if_pos h, ih, List.count_cons]
      have hne : (hd.1 == rn) = false := by
        rw [beq_eq_false_iff_ne]
        intro hEq
        rw [hEq, hreg] at h
        exact Bool.noConfusion h
      rw [hne]
      simp
    · rw [if_neg h, List.count_cons, List.count_cons, ih]
      have : (ruleNotFoundFinding mid hd.1 == ruleNotFoundFinding mid rn) = (hd.1 == rn) := by
        by_cases hEq : hd.1 = rn
        · rw [hEq]
          simp
        · rw [beq_eq_false_iff_ne.mpr hEq, beq_eq_false_iff_ne.mpr
            (fun hh => hEq ((ruleNotFound_inj mid hd.1 rn).mp hh))]
      rw [this]

/-- No rule-not-found finding hides among the per-message findings. -/
theorem count_ruleNotFound_map (mid rn : String) (pe : Option PendingEntry)
    (raw : List RawMessage) :
    (raw.map (fun m => toFinding mid (severityFor pe m) m)).count (ruleNotFoundFinding mid rn)
      = 0 := by
  rw [List.count_eq_zero]
  intro hmem
  rcases List.mem_map.mp hmem with ⟨m, _, hm⟩
  have := congrArg Finding.rule hm
  simp [toFinding, ruleNotFoundFinding] at this

/-- C6: every rule name configured (exactly once) in `config.rules` but
absent from the Rule Registry makes `verify` emit exactly one synthetic
finding with severity 2, no line and no column and the message
"Definition for rule '<ruleName>' was not found", independent of the AST
walk (any raw messages); and the Linter constructor does not fail:
resolution of an explicitly provided config always succeeds. -/
theorem rule_not_found_reported (config : Config) (mid rn : String) (raw : List RawMessage)
    (hcount : (config.rules.map Prod.fst).count rn = 1)
    (hreg : registryHas rn = false)
    (hig : isIgnored config mid = false) :
    (verify config mid (.ok raw)).count (ruleNotFoundFinding mid rn) = 1
    ∧ (ruleNotFoundFinding mid rn).severity = 2
    ∧ (ruleNotFoundFinding mid rn).line = none
    ∧ (ruleNotFoundFinding mid rn).column = none
    ∧ (ruleNotFoundFinding mid rn).message = "Definition for rule '" ++ rn ++ "' was not found"
    ∧ (∀ (ec : Config) (fsys : String → Option (Except String Config)),
        ∃ c, loadConfig (some ec) none fsys = Except.ok c) := by
  refine ⟨?_, rfl, rfl, rfl, rfl, fun ec fsys => ⟨resolveConfig ec, rfl⟩⟩
  have hv : verify config mid (.ok raw) =
      raw.map (fun m => toFinding mid (severityFor (pendingEntryFor config mid) m) m)
      ++ ((match pendingEntryFor config mid with
           | some _ => if raw.isEmpty then [staleFinding mid] else []
           | none => [])
          ++ config.rules.filterMap
              (fun rv => if registryHas rv.1 then none
                         else some (ruleNotFoundFinding mid rv.1))) := by
    simp [verify, classify, hig]
  rw [hv, List.count_append, List.count_append,
    count_ruleNotFound_map, count_ruleNotFound_filterMap mid rn hreg, hcount]
  have hstale : (match pendingEntryFor config mid with
      | some _ => if raw.isEmpty then [staleFinding mid] else []
      | none => ([] : List Finding)).count (ruleNotFoundFinding mid rn) = 0 := by
    rw [List.count_eq_zero]
    intro hmem
    rcases hpe : pendingEntryFor config mid with _ | e
    · rw [hpe] at hmem
      exact List.not_mem_nil _ hmem
    · rw [hpe] at hmem
      by_cases he : raw.isEmpty = true
      · rw [if_pos he] at hmem
        exact ruleNotFound_ne_stale mid rn mid (List.mem_singleton.mp hmem)
      · rw [if_neg he] at hmem
        exact List.not_mem_nil _ hmem
  rw [hstale]

/-- C6 witness: the acceptance test's config `{missing-rule: true}` on an
empty template yields exactly one rule-not-found finding. -/
theorem rule_not_found_reported_witness :
    (verify { rules := [("missing-rule", .bool true)] } "some/path/here"
        (.ok [])).count (ruleNotFoundFinding "some/path/here" "missing-rule") = 1 :=
  (rule_not_found_reported { rules := [("missing-rule", .bool true)] } "some/path/here"
      "missing-rule" [] (by decide) (by decide) (by decide)).1

/-- `moduleMatch` holds exactly for equal identifiers or an absolute path
ending in `/` plus the other (relative) identifier. -/
theorem moduleMatch_iff (a b : String) :
    moduleMatch a b = true ↔
      a = b
      ∨ (isAbsolutePath a = true ∧ ('/' :: b.data) <:+ a.data)
      ∨ (isAbsolutePath b = true ∧ ('/' :: a.data) <:+ b.data) := by
  simp [moduleMatch, Bool.or_eq_true, Bool.and_eq_true, beq_iff_eq,
    List.isSuffixOf_iff_suffix, or_assoc]

/-! ## C5 — pending-list membership -/

/-- C5: `statusForModule("pending", moduleId)` holds iff some pending
entry's moduleId is exactly the queried moduleId or one of the two is an
absolute path whose suffix is `/` plus the other identifier; in
particular a relative pending entry matches the same module queried by an
absolute path. -/
theorem statusForModule_pending_characterisation (config : Config) :
    (∀ mid, statusForModule "pending" config mid = true ↔
      ∃ e ∈ config.pending,
        e.moduleId = mid
        ∨ (isAbsolutePath e.moduleId = true ∧ ('/' :: mid.data) <:+ e.moduleId.data)
        ∨ (isAbsolutePath mid = true ∧ ('/' :: e.moduleId.data) <:+ mid.data))
    ∧ (∀ relId absPath, PendingEntry.bare relId ∈ config.pending →
        isAbsolutePath absPath = true →
        statusForModule "pending" config (absPath ++ "/" ++ relId) = true) := by
  constructor
  · intro mid
    show config.pending.any (fun e => moduleMatch e.moduleId mid) = true ↔ _
    rw [List.any_eq_true]
    constructor
    · rintro ⟨e, he, hm⟩
      exact ⟨e, he, (moduleMatch_iff _ _).mp hm⟩
    · rintro ⟨e, he, hm⟩
      exact ⟨e, he, (moduleMatch_iff _ _).mpr hm⟩
  · intro relId absPath hmem habs
    have hnil : absPath.data ≠ [] := by
      intro hn
      unfold isAbsolutePath at habs
      rw [hn] at habs
      exact absurd habs (by decide)
    have habs2 : isAbsolutePath (absPath ++ "/" ++ relId) = true := by
      unfold isAbsolutePath at habs ⊢
      rw [String.data_append, String.data_append, List.append_assoc,
        List.head?_append_of_ne_nil _ hnil]
      exact habs
    have hsuf : ('/' :: relId.data) <:+ (absPath ++ "/" ++ relId).data := by
      rw [String.data_append, String.data_append, List.append_assoc]
      exact List.suffix_append _ _
    show config.pending.any
      (fun e => moduleMatch e.moduleId (absPath ++ "/" ++ relId)) = true
    rw [List.any_eq_true]
    exact ⟨.bare relId, hmem,
      (moduleMatch_iff _ _).mpr (Or.inr (Or.inr ⟨habs2, hsuf⟩))⟩

/-- C5 witness: the acceptance tests' pending list answers true for both
listed moduleIds (relative and absolute queries) and false for an
unlisted one. -/
theorem statusForModule_pending_characterisation_witness :
    statusForModule "pending"
      { pending := [.bare "some/path/here", .withOnly "foo/bar/baz" ["no-bare-strings"]] }
      "some/path/here" = true
    ∧ statusForModule "pending"
      { pending := [.bare "some/path/here", .withOnly "foo/bar/baz" ["no-bare-strings"]] }
      "foo/bar/baz" = true
    ∧ statusForModule "pending"
      { pending := [.bare "some/path/here", .withOnly "foo/bar/baz" ["no-bare-strings"]] }
      "some/other/path" = false
    ∧ statusForModule "pending"
      { pending := [.bare "some/path/here", .withOnly "foo/bar/baz" ["no-bare-strings"]] }
      ("/tmp/project" ++ "/" ++ "some/path/here") = true :=
  ⟨(statusForModule_pending_characterisation _).1 _ |>.mpr
      ⟨.bare "some/path/here", by decide, Or.inl rfl⟩,
   (statusForModule_pending_characterisation _).1 _ |>.mpr
      ⟨.withOnly "foo/bar/baz" ["no-bare-strings"], by decide, Or.inl rfl⟩,
   by decide,
   (statusForModule_pending_characterisation _).2 "some/path/here" "/tmp/project"
      (by decide) (by decide)⟩

/-! ## C8 — config-load failures -/

/-- C8: config resolution fails exactly when the consulted config file
throws during evaluation (its message is propagated verbatim) or when an
explicitly supplied `configPath` does not resolve to an existing file; in
the latter case the message is `configNotFoundMsg`, which always contains
"could not be found. Aborting.". -/
theorem loadConfig_failure_characterisation (explicitConfig : Option Config)
    (configPath : Option String) (fsys : String → Option (Except String Config)) (e : String) :
    (loadConfig explicitConfig configPath fsys = .error e ↔
      (∃ p, configPath = some p ∧ fsys p = none ∧ e = configNotFoundMsg p)
      ∨ (∃ p, configPath = some p ∧ fsys p = some (.error e))
      ∨ (configPath = none ∧ explicitConfig = none ∧ fsys lintrcName = some (.error e)))
    ∧ (∀ p, ("could not be found. Aborting.").data <:+ (configNotFoundMsg p).data) := by
  constructor
  · cases configPath with
    | none =>
      cases explicitConfig with
      | some ec => simp [loadConfig]
      | none =>
        cases hfs : fsys lintrcName with
        | none => simp [loadConfig, hfs]
        | some r =>
          cases r with
          | error m => simp [loadConfig, hfs, eq_comm]
          | ok c => simp [loadConfig, hfs]
    | some p' =>
      cases hfs : fsys p' with
      | none => simp [loadConfig, hfs, eq_comm]
      | some r =>
        cases r with
        | error m => simp [loadConfig, hfs, eq_comm]
        | ok c =>
          cases explicitConfig with
          | some ec => simp [loadConfig, hfs]
          | none => simp [loadConfig, hfs]
  · intro p
    have h1 : ("could not be found. Aborting.").data
        <:+ (") could not be found. Aborting.").data := ⟨[')', ' '], by decide⟩
    have h2 : (") could not be found. Aborting.").data <:+ (configNotFoundMsg p).data := by
      unfold configNotFoundMsg
      rw [String.data_append]
      exact List.suffix_append _ _
    exact h1.trans h2

/-- C8 witness: the two acceptance-test scenarios — a missing explicit
configPath produces the "could not be found. Aborting." message, and an
error thrown while evaluating the discovered `.template-lintrc.js` is
propagated verbatim. -/
theorem loadConfig_failure_characterisation_witness :
    loadConfig none (some "does/not/exist") (fun _ => none)
      = Except.error
          "The configuration file specified (does/not/exist) could not be found. Aborting."
    ∧ loadConfig none none
        (fun n => if n = ".template-lintrc.js"
                  then some (.error "error happening during config loading")
                  else none)
      = Except.error "error happening during config loading" :=
  ⟨(loadConfig_failure_characterisation none (some "does/not/exist") (fun _ => none)
        "The configuration file specified (does/not/exist) could not be found. Aborting.").1.mpr
      (Or.inl ⟨"does/not/exist", rfl, rfl, by decide⟩),
   (loadConfig_failure_characterisation none none _
        "error happening during config loading").1.mpr
      (Or.inr (Or.inr ⟨rfl, rfl, rfl⟩))⟩

/-! ## C9 — deprecated rule names are rewritten -/

/-- C9: a deprecated rule name configured with any value resolves to the
canonical name bound to the same value, the deprecated key is absent from
the resolved mapping, and the resolved configuration is identical to the
one obtained by configuring the canonical name directly. -/
theorem deprecated_rule_resolution (d c : String) (v : RuleConfig)
    (h : (d, c) ∈ deprecatedRules) :
    (∀ fsys, loadConfig (some { rules := [(d, v)] }) none fsys
        = Except.ok { rules := [(c, v)] })
    ∧ (resolveRules [(d, v)]).lookup c = some v
    ∧ (resolveRules [(d, v)]).lookup d = none
    ∧ (∀ fsys, loadConfig (some { rules := [(d, v)] }) none fsys
        = loadConfig (some { rules := [(c, v)] }) none fsys) := by
  fin_cases h
  · exact ⟨fun fsys => rfl, rfl, rfl, fun fsys => rfl⟩
  · exact ⟨fun fsys => rfl, rfl, rfl, fun fsys => rfl⟩
  · exact ⟨fun fsys => rfl, rfl, rfl, fun fsys => rfl⟩

/-- C9 witness: the acceptance test's `{'bare-strings': true}` resolves to
`{'no-bare-strings': true}`. -/
theorem deprecated_rule_resolution_witness :
    loadConfig (some { rules := [("bare-strings", .bool true)] }) none (fun _ => none)
      = Except.ok { rules := [("no-bare-strings", .bool true)] } :=
  (deprecated_rule_resolution "bare-strings" "no-bare-strings" (.bool true) (by decide)).1 _

end EmberTemplateLint
